import Mathlib

/-!
Verification of the gosh/gssh SSH client library (shipengqi/gosh) against its
specification.  The Go sources are shallowly embedded: pure data flow becomes
Lean functions, external effects (the x/crypto/ssh transport, the filesystem,
goroutine scheduling) become explicit oracle parameters, and Go's
`(value, error)` returns become pairs with `Option GoError`.
-/

namespace gssh

/-- An SSH public key as the trust store distinguishes it: its algorithm
name (`ssh.PublicKey.Type()`, e.g. `ssh-rsa`) plus opaque key material, so
two keys are equal exactly when both coincide and two keys of the same
algorithm can differ. -/
structure SSHKey where
  alg : String
  material : Nat
  deriving DecidableEq, Repr

/-- Errors of the library and of the external collaborators it calls, as one
inductive.  `nilSession` is `ErrNilSession` from cmd.go; `keyMismatch` is the
`knownhosts.KeyError` carrying its `Want` keys; `alreadyStarted` is the
x/crypto/ssh error returned when a session method is invoked on a session
whose command was already started; `netClosed` is the error the underlying
network connection returns when closed twice; the rest model I/O, context and
handler errors abstractly. -/
inductive GoError where
  | nilSession
  | alreadyStarted
  | ctxCanceled
  | ctxDeadlineExceeded
  | keyMismatch (want : List SSHKey)
  | ioError (msg : String)
  | handler (code : Nat)
  | noAuthMethod
  | netClosed
  | agentFail
  | keyParse
  deriving DecidableEq, Repr

/-! ## Host trust store (knownhosts.go)

Host addresses are modelled structurally as host/port pairs rather than raw
`"host:port"` strings, so `knownhosts.Normalize` becomes a function on
`HostPort` instead of a string parser.  A known-hosts file is a list of
records, each one line: a list of normalized address patterns plus one public
key. -/

structure HostPort where
  host : String
  port : Nat
  deriving DecidableEq, Repr

/-- `knownhosts.Normalize` from the external x/crypto/ssh/knownhosts library,
on a structured address: port 22 is left implicit, any other port is written
`[host]:port`, and a bare host containing a colon is bracketed. -/
def normalize (a : HostPort) : String :=
  if a.port = 22 then
    if a.host.data.contains ':' then "[" ++ a.host ++ "]" else a.host
  else
    "[" ++ a.host ++ "]:" ++ toString a.port

/-- One line of a known-hosts file: the comma-separated normalized address
patterns and the host public key of that line. -/
structure HostRecord where
  patterns : List String
  key : SSHKey
  deriving DecidableEq, Repr

/-- Whether a record's pattern list covers a normalized address (plain
pattern matching by equality, as for the non-wildcard lines the library
itself writes). -/
def recMatch (r : HostRecord) (a : String) : Bool :=
  r.patterns.any (fun p => decide (p = a))

/-- The collection scan of the external `hostKeyDB.checkAddr`: walk the
store lines in order and keep, for each key algorithm, the key of the FIRST
line covering the queried address (Go builds a `map[string]KnownKey` keyed
by `Key.Type()`, inserting only when that type is not yet in the map).  The
accumulator is the map built so far: at most one key per algorithm, in
first-occurrence order. -/
def collectLoop (a : String) : List HostRecord → List SSHKey → List SSHKey
  | [], acc => acc
  | r :: rs, acc =>
    if recMatch r a then
      if acc.any (fun k => decide (k.alg = r.key.alg)) then
        collectLoop a rs acc
      else
        collectLoop a rs (acc ++ [r.key])
    else collectLoop a rs acc

/-- The effective known keys of an address: one key per algorithm, each from
the first covering line of that algorithm.  These are the values of
`checkAddr`'s `knownKeys` map and the content of `KeyError.Want`; Go's map
iteration order for `Want` is unspecified, so the embedding determinizes it
to first-occurrence (insertion) order — the set of wanted keys is what the
program guarantees. -/
def knownKeysFor (db : List HostRecord) (a : String) : List SSHKey :=
  collectLoop a db []

/-- The map lookup `knownKeys[remoteKey.Type()]`: the effective key of the
given algorithm for this address, if any. -/
def firstKeyOfType (db : List HostRecord) (a : String) (alg : String) : Option SSHKey :=
  (knownKeysFor db a).find? (fun k => decide (k.alg = alg))

/-- The decision of the external `hostKeyDB.checkAddr`: with no covering
line, a `KeyError` with empty `Want` (unknown host); otherwise the presented
key is accepted (`none`) exactly when the effective key of its own algorithm
exists and equals it, and rejected with `Want` = the effective keys (a
covering line of the presented key with an earlier same-algorithm line is
shadowed and does not count). -/
def checkAddr (db : List HostRecord) (a : String) (key : SSHKey) :
    Option (List SSHKey) :=
  let known := knownKeysFor db a
  if known.length = 0 then some known
  else
    match known.find? (fun k => decide (k.alg = key.alg)) with
    | some k => if k = key then none else some known
    | none => some known

/-- The knownhosts host-key callback on a loaded database: `none` means the
key was accepted, `some want` is a `KeyError` with those wanted keys.  The
external library gives preference to the hostname over the remote socket
address when (as in this client) a hostname is supplied, so only the
normalized alias is looked up; the remote address is kept as an (unused)
argument to mirror the Go signature. -/
def checkKnownHost (db : List HostRecord) (host : HostPort) (_remote : HostPort)
    (key : SSHKey) : Option (List SSHKey) :=
  checkAddr db (normalize host) key

/-- `VerifyKnownHost` from knownhosts.go, on a loaded store: run the
knownhosts callback; `nil` error means the host is known with this key
(`(true, none)`); a `KeyError` with non-empty `Want` means the host is known
with a different key (`(true, keyErr)`); anything else means the host is
unknown (`(false, none)`). -/
def VerifyKnownHost (db : List HostRecord) (host : HostPort) («remote» : HostPort)
    (key : SSHKey) : Bool × Option GoError :=
  match checkKnownHost db host «remote» key with
  | none => (true, none)
  | some want =>
    if 0 < want.length then (true, some (GoError.keyMismatch want))
    else (false, none)

/-- The address patterns `AppendKnownHost` writes on one line: the normalized
remote socket address, plus the normalized host alias when the two normalize
differently. -/
def appendAddresses (host : HostPort) («remote» : HostPort) : List String :=
  let remoteNormalized := normalize «remote»
  let hostNormalized := normalize host
  if hostNormalized ≠ remoteNormalized then [remoteNormalized, hostNormalized]
  else [remoteNormalized]

/-- The record `AppendKnownHost` appends to the store when the file I/O
succeeds. -/
def appendRecord (host : HostPort) («remote» : HostPort) (key : SSHKey) : HostRecord :=
  { patterns := appendAddresses host «remote», key := key }

/-- Outcome oracle for the two file-system effects of `AppendKnownHost`:
opening the known-hosts file for append (creating it if absent) and writing
the new line. -/
structure FileIO where
  openErr : Option GoError
  writeErr : Option GoError
  deriving DecidableEq, Repr

/-- `AppendKnownHost` from knownhosts.go: open the store file for append
(owner-only permissions), write one line covering the deduplicated normalized
addresses, and return the first error of either step together with the
resulting store contents. -/
def AppendKnownHost (db : List HostRecord) (io : FileIO) (host : HostPort)
    («remote» : HostPort) (key : SSHKey) : Option GoError × List HostRecord :=
  match io.openErr with
  | some e => (some e, db)
  | none =>
    match io.writeErr with
    | some e => (some e, db)
    | none => (none, db ++ [appendRecord host «remote» key])

/-- `AutoFixedHostKeyCallback` from knownhosts.go: verify; a found host with
an error refuses with that error; a found host without error is accepted; an
unknown host is appended to the store and accepted iff the append succeeds. -/
def AutoFixedHostKeyCallback (db : List HostRecord) (io : FileIO) (host : HostPort)
    («remote» : HostPort) (key : SSHKey) : Option GoError × List HostRecord :=
  let found := (VerifyKnownHost db host «remote» key).1
  let err := (VerifyKnownHost db host «remote» key).2
  if found ∧ err.isSome then (err, db)
  else if found then (none, db)
  else AppendKnownHost db io host «remote» key

/-- The queried alias is covered by some record of the store. -/
def aliasFound (db : List HostRecord) (a : String) : Bool :=
  db.any (fun r => recMatch r a)

/-- The queried alias is covered by some record of the store carrying exactly
the presented key (statement-side predicate, used to state what the spec
believed; the library itself consults only the first covering line per
algorithm). -/
def aliasFoundWithKey (db : List HostRecord) (a : String) (key : SSHKey) : Bool :=
  db.any (fun r => recMatch r a && decide (r.key = key))

/-- An RSA key with material 1, used in closed instances. -/
def kRSA1 : SSHKey := ⟨"ssh-rsa", 1⟩

/-- A second, different RSA key (same algorithm as `kRSA1`), used in closed
instances. -/
def kRSA2 : SSHKey := ⟨"ssh-rsa", 2⟩

/-- A key-rotation store: the alias `h` is covered by two lines with
different keys of the same algorithm, the old `kRSA1` first. -/
def rotatedDb : List HostRecord := [⟨["h"], kRSA1⟩, ⟨["h"], kRSA2⟩]

/-! ## Credential resolver (auth, `Auth` and helpers)

`Options` is the configuration record from gosh.go.  The environment the
resolver consults — the `SSH_AUTH_SOCK` agent socket, the agent connection,
and the key file on disk — is an oracle record `AuthEnv`. -/

structure Options where
  username : String
  password : String
  key : String
  keyPassphrase : String
  addr : String
  port : Nat
  useAgent : Bool
  timeout : Nat
  deriving DecidableEq, Repr

/-- `NewOptions` from gosh.go: default username `root`, port 22, timeout 20
seconds (modelled in seconds). -/
def NewOptions : Options :=
  { username := "root", password := "", key := "", keyPassphrase := "",
    addr := "", port := 22, useAgent := false, timeout := 20 }

/-- One prepared authentication method (`ssh.AuthMethod`): an agent-backed
signer list, a parsed private-key signer, or a password. -/
inductive AuthMethod where
  | agentSigners (id : Nat)
  | publicKeys (signer : Nat)
  | password (pass : String)
  deriving DecidableEq, Repr

/-- Oracle for the external effects of the resolver: whether `SSH_AUTH_SOCK`
is set (`HasAgent`), what `Agent()` yields, and what reading plus parsing the
key file at a given path with a given passphrase yields (`GetSigner`). -/
structure AuthEnv where
  hasAgent : Bool
  agentResult : Except GoError AuthMethod
  getSigner : String → String → Except GoError Nat

/-- `Auth` from the auth source file: try the agent when requested and
discoverable, then the private key path, then the password, in that order;
agent and key failures fall through to the next method; with nothing left,
fail with the `no auth method` error. -/
def Auth (opts : Options) (env : AuthEnv) : Except GoError AuthMethod :=
  let keyStep : Except GoError AuthMethod :=
    if opts.key ≠ "" then
      match env.getSigner opts.key opts.keyPassphrase with
      | .ok signer => .ok (.publicKeys signer)
      | .error _ =>
        if opts.password ≠ "" then .ok (.password opts.password)
        else .error .noAuthMethod
    else
      if opts.password ≠ "" then .ok (.password opts.password)
      else .error .noAuthMethod
  if opts.useAgent && env.hasAgent then
    match env.agentResult with
    | .ok a => .ok a
    | .error _ => keyStep
  else keyStep

/-! ## Connection manager (gosh.go `Client`)

The embedded `*ssh.Client` is `Option SSHConn`: `none` before a successful
`Dial` (the Go nil pointer), `some` afterwards.  The host-key callback is a
function field, exactly as in the Go struct. -/

/-- The state of the external `*ssh.Client` / underlying network connection:
only whether it has been closed is observable here. -/
structure SSHConn where
  closed : Bool
  deriving DecidableEq, Repr

/-- `Close` of the external ssh client: closing an open connection succeeds
and marks it closed; closing an already-closed connection reports the
`use of closed network connection` error (modelled as `netClosed`). -/
def SSHConn.close (c : SSHConn) : Option GoError × SSHConn :=
  if c.closed then (some GoError.netClosed, c)
  else (none, { closed := true })

/-- The `Client` struct from gosh.go: the embedded (optional) ssh client, the
options, the resolved auth method and the host-key callback. -/
structure Client where
  conn : Option SSHConn
  opts : Options
  auth : AuthMethod
  callback : HostPort → HostPort → SSHKey → Option GoError

/-- `New` from gosh.go: resolve the auth method; on success build a client
with no connection and a host-key callback that returns `nil` for every
(hostname, remote, key) triple. -/
def New (opts : Options) (env : AuthEnv) : Except GoError Client :=
  match Auth opts env with
  | .error e => .error e
  | .ok auth =>
    .ok { conn := none, opts := opts, auth := auth,
          callback := fun _hostname _remote _key => none }

/-- `WithHostKeyCallback` from gosh.go: replace the client's host-key
callback. -/
def Client.withHostKeyCallback (c : Client) (cb : HostPort → HostPort → SSHKey → Option GoError) :
    Client :=
  { c with callback := cb }

/-- The `ssh.ClientConfig` assembled by `Client.dial` and handed to
`ssh.Dial`: user, the one auth method, timeout, and the client's host-key
callback. -/
structure ClientConfig where
  user : String
  auth : List AuthMethod
  timeout : Nat
  hostKeyCallback : HostPort → HostPort → SSHKey → Option GoError

/-- The configuration `Client.dial` passes to the handshake. -/
def Client.dialConfig (c : Client) : ClientConfig :=
  { user := c.opts.username, auth := [c.auth], timeout := c.opts.timeout,
    hostKeyCallback := c.callback }

/-- `Client.Dial` from gosh.go, with the outcome of the external `ssh.Dial`
as an oracle: on success the fresh ssh client is stored in the embedded
field; on failure the client is unchanged and the error returned. -/
def Client.Dial (c : Client) (outcome : Except GoError Unit) : Option GoError × Client :=
  match outcome with
  | .error e => (some e, c)
  | .ok _ => (none, { c with conn := some { closed := false } })

/-- Result of `Client.Close`: the returned error, the client afterwards, and
whether the underlying ssh client's `Close` was invoked. -/
structure CloseResult where
  err : Option GoError
  client : Client
  connCloseInvoked : Bool

/-- `Client.Close` from gosh.go: if the embedded ssh client is non-nil,
delegate to its `Close` (the embedded pointer is never cleared); otherwise
return `nil` without touching anything. -/
def Client.Close (c : Client) : CloseResult :=
  match c.conn with
  | none => { err := none, client := c, connCloseInvoked := false }
  | some conn =>
    let r := conn.close
    { err := r.1, client := { c with conn := some r.2 }, connCloseInvoked := true }

/-- Options of the concrete client used in closed instances: password
authentication against a fixed address. -/
def cliOpts : Options :=
  { NewOptions with password := "pw", addr := "203.0.113.5" }

/-- Environment with no agent and no readable key, used in closed
instances. -/
def cliEnv : AuthEnv :=
  ⟨false, .error .agentFail, fun _ _ => .error .keyParse⟩

/-- The client `New cliOpts cliEnv` returns. -/
def newClient0 : Client :=
  { conn := none, opts := cliOpts, auth := AuthMethod.password "pw",
    callback := fun _hostname _remote _key => none }

/-- `newClient0` after a successful `Dial`. -/
def dialedClient : Client := (newClient0.Dial (.ok ())).2

/-- `dialedClient` after one `Close`. -/
def closedOnceClient : Client := dialedClient.Close.client

/-! ## Remote commands (cmd.go)

The `*ssh.Session` a `Cmd` owns is `Option SessionSt`: the Go nil pointer is
`none`; a non-nil session carries the external session's observable state
(whether its command was started and whether it was closed).  The remote
execution outcome and the goroutine/select race with the context are
oracles. -/

/-- Observable state of an external `ssh.Session`. -/
structure SessionSt where
  started : Bool
  closed : Bool
  deriving DecidableEq, Repr

/-- The remote side's outcome for one executed command: the bytes it would
produce and its error, as the external session reports them. -/
structure Remote where
  out : List Nat
  err : Option GoError
  deriving DecidableEq, Repr

/-- A `context.Context` as far as cmd.go observes it: the error `ctx.Err()`
reports once the context is done. -/
structure Ctx where
  doneErr : GoError
  deriving DecidableEq, Repr

/-- The `Cmd` struct from cmd.go. -/
structure Cmd where
  path : String
  args : List String
  session : Option SessionSt
  ctx : Option Ctx
  deriving DecidableEq, Repr

/-- `newCommand` from cmd.go. -/
def newCommand (session : Option SessionSt) (name : String) (args : List String) : Cmd :=
  { path := name, args := args, session := session, ctx := none }

/-- `newCommandContext` from cmd.go (the non-nil-context case). -/
def newCommandContext (ctx : Ctx) (session : Option SessionSt) (name : String)
    (args : List String) : Cmd :=
  { newCommand session name args with ctx := some ctx }

/-- Result of one session-consuming `Cmd` operation: output bytes, error,
the `Cmd` afterwards, whether any call on the session was performed, and
whether SIGINT was sent to the remote process. -/
structure OpResult where
  out : List Nat
  err : Option GoError
  cmd : Cmd
  sessionInvoked : Bool
  sigint : Bool
  deriving DecidableEq, Repr

/-- One run-to-completion call on the external session
(`Output`/`CombinedOutput`/`Run`): a session whose command was already
started reports the `ssh: session already started` error; otherwise the
session starts the command and the remote outcome is returned. -/
def sessionRun (s : SessionSt) (r : Remote) : (List Nat × Option GoError) × SessionSt :=
  if s.started then (([], some GoError.alreadyStarted), s)
  else ((r.out, r.err), { s with started := true })

/-- `Cmd.execute`/`Cmd.executeWithCtx` from cmd.go, applied to the session
call of `Output`-like operations.  Without a context the callback runs
directly.  With a context, the callback runs in a goroutine racing the
context: `ctxFirst` is the scheduling oracle telling whether the context was
done before the callback completed; in that case `SIGINT` is sent to the
remote process and `(nil, ctx.Err())` is returned.  The deferred
`session.Close` of the caller marks the session closed on every path. -/
def Cmd.execCore (c : Cmd) (s : SessionSt) (r : Remote) (ctxFirst : Bool) : OpResult :=
  match c.ctx with
  | none =>
    let res := sessionRun s r
    { out := res.1.1, err := res.1.2,
      cmd := { c with session := some { res.2 with closed := true } },
      sessionInvoked := true, sigint := false }
  | some ctx =>
    if ctxFirst then
      { out := [], err := some ctx.doneErr,
        cmd := { c with session := some { started := true, closed := true } },
        sessionInvoked := true, sigint := true }
    else
      let res := sessionRun s r
      { out := res.1.1, err := res.1.2,
        cmd := { c with session := some { res.2 with closed := true } },
        sessionInvoked := true, sigint := false }

/-- `Cmd.Output` from cmd.go: nil session gives `ErrNilSession` with no
session call; otherwise the session's `Output` runs under
`execute`/`executeWithCtx` with the session closed on return. -/
def Cmd.Output (c : Cmd) (r : Remote) (ctxFirst : Bool) : OpResult :=
  match c.session with
  | none => { out := [], err := some GoError.nilSession, cmd := c,
              sessionInvoked := false, sigint := false }
  | some s => c.execCore s r ctxFirst

/-- `Cmd.CombinedOutput` from cmd.go: same shape as `Output`, with the
remote outcome being the combined stream. -/
def Cmd.CombinedOutput (c : Cmd) (r : Remote) (ctxFirst : Bool) : OpResult :=
  match c.session with
  | none => { out := [], err := some GoError.nilSession, cmd := c,
              sessionInvoked := false, sigint := false }
  | some s => c.execCore s r ctxFirst

/-- `Cmd.Run` from cmd.go: like `Output` but the callback returns no bytes
and only the error is surfaced. -/
def Cmd.Run (c : Cmd) (r : Remote) (ctxFirst : Bool) : OpResult :=
  match c.session with
  | none => { out := [], err := some GoError.nilSession, cmd := c,
              sessionInvoked := false, sigint := false }
  | some s => c.execCore s { out := [], err := r.err } ctxFirst

/-- `Cmd.Start` from cmd.go: nil session gives `ErrNilSession`; otherwise
the session's `Start` runs (no context race in the Go code) and the deferred
close marks the session closed. -/
def Cmd.Start (c : Cmd) (startErr : Option GoError) : OpResult :=
  match c.session with
  | none => { out := [], err := some GoError.nilSession, cmd := c,
              sessionInvoked := false, sigint := false }
  | some s =>
    if s.started then
      { out := [], err := some GoError.alreadyStarted,
        cmd := { c with session := some { s with closed := true } },
        sessionInvoked := true, sigint := false }
    else
      { out := [], err := startErr,
        cmd := { c with session := some { started := true, closed := true } },
        sessionInvoked := true, sigint := false }

/-- Oracle for one `OutputPipe` run: the outcome of `StdoutPipe`, the
outcome of `Start`, the newline-delimited lines the remote writes to its
standard output, and the outcome of `Wait`. -/
structure PipeBehavior where
  stdoutPipeErr : Option GoError
  startErr : Option GoError
  lines : List (List Nat)
  waitErr : Option GoError
  deriving DecidableEq, Repr

/-- Result of `Cmd.OutputPipe`: the returned error, the lines the handler
was invoked on in order, whether `Wait` was reached, the `Cmd` afterwards,
and whether any session call was performed. -/
structure PipeResult where
  err : Option GoError
  invoked : List (List Nat)
  waited : Bool
  cmd : Cmd
  sessionInvoked : Bool

/-- The read loop of `Cmd.OutputPipe`: read a line, stop at end of stream,
hand the line to the handler, and stop returning the handler's error as soon
as it is non-nil.  Returns the handler error (if any) and the lines the
handler was invoked on, in arrival order. -/
def pipeLoop (fn : List Nat → Option GoError) :
    List (List Nat) → Option GoError × List (List Nat)
  | [] => (none, [])
  | l :: ls =>
    match fn l with
    | some e => (some e, [l])
    | none =>
      let r := pipeLoop fn ls
      (r.1, l :: r.2)

/-- `Cmd.OutputPipe` from cmd.go: nil session gives `ErrNilSession`;
otherwise acquire the stdout pipe, start the command (each failure is
returned directly), run the read loop handing each line to the handler, and
— when the loop was not cut short by a handler error — wait for the remote
process and return the wait outcome.  The deferred close marks the session
closed on every path after the nil check. -/
def Cmd.OutputPipe (c : Cmd) (fn : List Nat → Option GoError) (b : PipeBehavior) :
    PipeResult :=
  match c.session with
  | none => { err := some GoError.nilSession, invoked := [], waited := false,
              cmd := c, sessionInvoked := false }
  | some s =>
    match b.stdoutPipeErr with
    | some e =>
      { err := some e, invoked := [], waited := false,
        cmd := { c with session := some { s with closed := true } },
        sessionInvoked := true }
    | none =>
      if s.started then
        { err := some GoError.alreadyStarted, invoked := [], waited := false,
          cmd := { c with session := some { s with closed := true } },
          sessionInvoked := true }
      else
        match b.startErr with
        | some e =>
          { err := some e, invoked := [], waited := false,
            cmd := { c with session := some { started := true, closed := true } },
            sessionInvoked := true }
        | none =>
          let lr := pipeLoop fn b.lines
          match lr.1 with
          | some e =>
            { err := some e, invoked := lr.2, waited := false,
              cmd := { c with session := some { started := true, closed := true } },
              sessionInvoked := true }
          | none =>
            { err := b.waitErr, invoked := lr.2, waited := true,
              cmd := { c with session := some { started := true, closed := true } },
              sessionInvoked := true }

/-- A fresh command on a live session, used in closed instances. -/
def echoCmd : Cmd := newCommand (some { started := false, closed := false }) "echo" ["hi"]

/-- A successful remote outcome, used in closed instances. -/
def remoteOk : Remote := { out := [104, 105], err := none }

/-- A command bound to a cancelled-capable context on a live session, used in
closed instances. -/
def ctxCmd : Cmd :=
  newCommandContext ⟨GoError.ctxCanceled⟩ (some { started := false, closed := false })
    "sleep" ["100"]

/-- Line handler used in closed instances: fails on the line `[9]`, accepts
everything else. -/
def pipeFn : List Nat → Option GoError :=
  fun l => if l = [9] then some (GoError.handler 1) else none

theorem collectLoop_append (a : String) :
    ∀ (xs ys : List HostRecord) (acc : List SSHKey),
      collectLoop a (xs ++ ys) acc = collectLoop a ys (collectLoop a xs acc) := by
  intro xs
  induction xs with
  | nil => intro ys acc; rfl
  | cons r rs ih =>
    intro ys acc
    simp only [List.cons_append, collectLoop]
    by_cases hm : recMatch r a = true
    · rw [if_pos hm, if_pos hm]
      by_cases ha : acc.any (fun k => decide (k.alg = r.key.alg)) = true
      · rw [if_pos ha, if_pos ha]
        exact ih ys acc
      · rw [if_neg ha, if_neg ha]
        exact ih ys (acc ++ [r.key])
    · rw [if_neg hm, if_neg hm]
      exact ih ys acc

theorem collectLoop_prefix (a : String) :
    ∀ (db : List HostRecord) (acc : List SSHKey),
      ∃ ext, collectLoop a db acc = acc ++ ext := by
  intro db
  induction db with
  | nil => intro acc; exact ⟨[], by simp [collectLoop]⟩
  | cons r rs ih =>
    intro acc
    simp only [collectLoop]
    by_cases hm : recMatch r a = true
    · rw [if_pos hm]
      by_cases ha : acc.any (fun k => decide (k.alg = r.key.alg)) = true
      · rw [if_pos ha]
        exact ih acc
      · rw [if_neg ha]
        obtain ⟨ext, he⟩ := ih (acc ++ [r.key])
        exact ⟨[r.key] ++ ext, by rw [he, List.append_assoc]⟩
    · rw [if_neg hm]
      exact ih acc

theorem collectLoop_id_of_absent (a : String) :
    ∀ (db : List HostRecord) (acc : List SSHKey), aliasFound db a = false →
      collectLoop a db acc = acc := by
  intro db
  induction db with
  | nil => intro acc _; rfl
  | cons r rs ih =>
    intro acc h
    simp only [aliasFound, List.any_cons, Bool.or_eq_false_iff] at h
    obtain ⟨h1, h2⟩ := h
    simp only [collectLoop]
    rw [if_neg (by simp [h1])]
    exact ih acc h2

theorem knownKeysFor_nil_of_absent (db : List HostRecord) (a : String)
    (h : aliasFound db a = false) : knownKeysFor db a = [] :=
  collectLoop_id_of_absent a db [] h

theorem collectLoop_ne_nil_of_found (a : String) :
    ∀ (db : List HostRecord) (acc : List SSHKey), aliasFound db a = true →
      collectLoop a db acc ≠ [] := by
  intro db
  induction db with
  | nil => intro acc h; simp [aliasFound] at h
  | cons r rs ih =>
    intro acc h
    simp only [aliasFound, List.any_cons, Bool.or_eq_true] at h
    simp only [collectLoop]
    by_cases hm : recMatch r a = true
    · rw [if_pos hm]
      by_cases ha : acc.any (fun k => decide (k.alg = r.key.alg)) = true
      · rw [if_pos ha]
        have hacc : acc ≠ [] := by
          intro hnil
          rw [hnil] at ha
          simp at ha
        obtain ⟨ext, he⟩ := collectLoop_prefix a rs acc
        rw [he]
        intro hz
        exact hacc (List.append_eq_nil.mp hz).1
      · rw [if_neg ha]
        obtain ⟨ext, he⟩ := collectLoop_prefix a rs (acc ++ [r.key])
        rw [he]
        intro hz
        have h1 := (List.append_eq_nil.mp hz).1
        have h2 := (List.append_eq_nil.mp h1).2
        exact absurd h2 (by simp)
    · rw [if_neg hm]
      have h2 : aliasFound rs a = true := by
        rcases h with h | h
        · exact absurd h hm
        · exact h
      exact ih acc h2

theorem knownKeysFor_ne_nil_of_found (db : List HostRecord) (a : String)
    (h : aliasFound db a = true) : knownKeysFor db a ≠ [] :=
  collectLoop_ne_nil_of_found a db [] h

theorem verify_matched_eq (db : List HostRecord) (host «remote» : HostPort) (key : SSHKey)
    (h : firstKeyOfType db (normalize host) key.alg = some key) :
    VerifyKnownHost db host «remote» key = (true, none) := by
  have hfind : (knownKeysFor db (normalize host)).find?
      (fun k => decide (k.alg = key.alg)) = some key := h
  have hne : knownKeysFor db (normalize host) ≠ [] := by
    intro hnil
    rw [hnil] at hfind
    simp at hfind
  have hlen : ¬ (knownKeysFor db (normalize host)).length = 0 := by
    simpa [List.length_eq_zero] using hne
  simp [VerifyKnownHost, checkKnownHost, checkAddr, hfind, hlen]

theorem verify_mismatched_eq (db : List HostRecord) (host «remote» : HostPort)
    (key : SSHKey) (hf : aliasFound db (normalize host) = true)
    (hk : firstKeyOfType db (normalize host) key.alg ≠ some key) :
    VerifyKnownHost db host «remote» key =
      (true, some (GoError.keyMismatch (knownKeysFor db (normalize host)))) := by
  have hne : knownKeysFor db (normalize host) ≠ [] :=
    knownKeysFor_ne_nil_of_found db (normalize host) hf
  have hlen : ¬ (knownKeysFor db (normalize host)).length = 0 := by
    simpa [List.length_eq_zero] using hne
  have hpos : 0 < (knownKeysFor db (normalize host)).length := Nat.pos_of_ne_zero hlen
  cases hfind : (knownKeysFor db (normalize host)).find?
      (fun k => decide (k.alg = key.alg)) with
  | none => simp [VerifyKnownHost, checkKnownHost, checkAddr, hfind, hlen, hpos]
  | some k =>
    have hkk : ¬ k = key := by
      intro he
      rw [he] at hfind
      exact hk hfind
    simp [VerifyKnownHost, checkKnownHost, checkAddr, hfind, hlen, hpos, hkk]

theorem verify_absent_eq (db : List HostRecord) (host «remote» : HostPort) (key : SSHKey)
    (hf : aliasFound db (normalize host) = false) :
    VerifyKnownHost db host «remote» key = (false, none) := by
  have h0 : knownKeysFor db (normalize host) = [] :=
    knownKeysFor_nil_of_absent db (normalize host) hf
  simp [VerifyKnownHost, checkKnownHost, checkAddr, h0]

/-- C2 counterexample: at the key-rotation store `rotatedDb` the alias `h`
is present with exactly the presented key `kRSA2` (its second line), yet
`VerifyKnownHost` reports a key mismatch wanting only `kRSA1`, because the
library consults solely the first covering line per key algorithm: the
claim's matching-key case is false of the program. -/
theorem VerifyKnownHost_shadowing_counterexample :
    aliasFoundWithKey rotatedDb (normalize ⟨"h", 22⟩) kRSA2 = true ∧
    VerifyKnownHost rotatedDb ⟨"h", 22⟩ ⟨"9.9.9.9", 22⟩ kRSA2 =
      (true, some (GoError.keyMismatch [kRSA1])) ∧
    VerifyKnownHost rotatedDb ⟨"h", 22⟩ ⟨"9.9.9.9", 22⟩ kRSA2 ≠ (true, none) := by
  decide

/-- C2 amended.  `VerifyKnownHost` classifies queries by the effective key
map (for each algorithm, the first store line covering the alias): it
returns `(true, nil)` when the effective key of the presented key's own
algorithm is exactly the presented key; `(true, KeyError)` carrying one
wanted key per algorithm (the first covering line of each; later
same-algorithm lines are shadowed) when some line covers the alias but that
effective key is absent or different; and `(false, nil)` when no line covers
the alias. -/
theorem VerifyKnownHost_cases (db : List HostRecord) (host «remote» : HostPort)
    (key : SSHKey) :
    (firstKeyOfType db (normalize host) key.alg = some key →
      VerifyKnownHost db host «remote» key = (true, none)) ∧
    (aliasFound db (normalize host) = true →
      firstKeyOfType db (normalize host) key.alg ≠ some key →
      VerifyKnownHost db host «remote» key =
        (true, some (GoError.keyMismatch (knownKeysFor db (normalize host))))) ∧
    (aliasFound db (normalize host) = false →
      VerifyKnownHost db host «remote» key = (false, none)) :=
  ⟨verify_matched_eq db host «remote» key,
   verify_mismatched_eq db host «remote» key,
   verify_absent_eq db host «remote» key⟩

/-- C2 amended witness: the three cases of `VerifyKnownHost_cases` evaluated
on concrete stores, the mismatch case at the shadowing store. -/
theorem VerifyKnownHost_cases_witness :
    (firstKeyOfType [⟨["h1"], kRSA1⟩] (normalize ⟨"h1", 22⟩) kRSA1.alg = some kRSA1 ∧
      VerifyKnownHost [⟨["h1"], kRSA1⟩] ⟨"h1", 22⟩ ⟨"9.9.9.9", 22⟩ kRSA1 = (true, none)) ∧
    (aliasFound rotatedDb (normalize ⟨"h", 22⟩) = true ∧
      firstKeyOfType rotatedDb (normalize ⟨"h", 22⟩) kRSA2.alg ≠ some kRSA2 ∧
      VerifyKnownHost rotatedDb ⟨"h", 22⟩ ⟨"9.9.9.9", 22⟩ kRSA2 =
        (true, some (GoError.keyMismatch (knownKeysFor rotatedDb (normalize ⟨"h", 22⟩))))) ∧
    (aliasFound [⟨["h1"], kRSA1⟩] (normalize ⟨"h2", 22⟩) = false ∧
      VerifyKnownHost [⟨["h1"], kRSA1⟩] ⟨"h2", 22⟩ ⟨"9.9.9.9", 22⟩ kRSA2 =
        (false, none)) := by
  refine ⟨⟨by decide, ?_⟩, ⟨by decide, by decide, ?_⟩, ⟨by decide, ?_⟩⟩
  · exact (VerifyKnownHost_cases [⟨["h1"], kRSA1⟩] ⟨"h1", 22⟩ ⟨"9.9.9.9", 22⟩ kRSA1).1
      (by decide)
  · exact (VerifyKnownHost_cases rotatedDb ⟨"h", 22⟩ ⟨"9.9.9.9", 22⟩ kRSA2).2.1
      (by decide) (by decide)
  · exact (VerifyKnownHost_cases [⟨["h1"], kRSA1⟩] ⟨"h2", 22⟩ ⟨"9.9.9.9", 22⟩ kRSA2).2.2
      (by decide)

/-- C3.  `AutoFixedHostKeyCallback` branches exactly on what `verify`
reports: found with an error propagates that error with the store unchanged;
found without error accepts with the store unchanged; not found appends the
record to the store and accepts, returning `nil` exactly when the append
succeeds. -/
theorem AutoFixedHostKeyCallback_spec (db : List HostRecord) (io : FileIO)
    (host «remote» : HostPort) (key : SSHKey) :
    (∀ e : GoError, VerifyKnownHost db host «remote» key = (true, some e) →
      AutoFixedHostKeyCallback db io host «remote» key = (some e, db)) ∧
    (VerifyKnownHost db host «remote» key = (true, none) →
      AutoFixedHostKeyCallback db io host «remote» key = (none, db)) ∧
    ((VerifyKnownHost db host «remote» key).1 = false →
      AutoFixedHostKeyCallback db io host «remote» key =
        AppendKnownHost db io host «remote» key ∧
      ((AutoFixedHostKeyCallback db io host «remote» key).1 = none ↔
        io.openErr = none ∧ io.writeErr = none) ∧
      (io.openErr = none → io.writeErr = none →
        AutoFixedHostKeyCallback db io host «remote» key =
          (none, db ++ [appendRecord host «remote» key]))) := by
  refine ⟨?_, ?_, ?_⟩
  · intro e h
    simp [AutoFixedHostKeyCallback, h]
  · intro h
    simp [AutoFixedHostKeyCallback, h]
  · intro h
    have heq : AutoFixedHostKeyCallback db io host «remote» key =
        AppendKnownHost db io host «remote» key := by
      simp [AutoFixedHostKeyCallback, h]
    refine ⟨heq, ?_, ?_⟩
    · rw [heq]
      cases ho : io.openErr with
      | some e => simp [AppendKnownHost, ho]
      | none =>
        cases hw : io.writeErr with
        | some e => simp [AppendKnownHost, ho, hw]
        | none => simp [AppendKnownHost, ho, hw]
    · intro ho hw
      rw [heq]
      simp [AppendKnownHost, ho, hw]

/-- C3 witness: the three branches of `AutoFixedHostKeyCallback_spec`
evaluated at concrete stores whose verify outcomes are computed, with
succeeding file I/O. -/
theorem AutoFixedHostKeyCallback_spec_witness :
    (VerifyKnownHost rotatedDb ⟨"h", 22⟩ ⟨"9.9.9.9", 22⟩ kRSA2 =
        (true, some (GoError.keyMismatch [kRSA1])) ∧
      AutoFixedHostKeyCallback rotatedDb ⟨none, none⟩ ⟨"h", 22⟩ ⟨"9.9.9.9", 22⟩ kRSA2 =
        (some (GoError.keyMismatch [kRSA1]), rotatedDb)) ∧
    (VerifyKnownHost [⟨["h1"], kRSA1⟩] ⟨"h1", 22⟩ ⟨"9.9.9.9", 22⟩ kRSA1 = (true, none) ∧
      AutoFixedHostKeyCallback [⟨["h1"], kRSA1⟩] ⟨none, none⟩ ⟨"h1", 22⟩
        ⟨"9.9.9.9", 22⟩ kRSA1 = (none, [⟨["h1"], kRSA1⟩])) ∧
    ((VerifyKnownHost [⟨["h1"], kRSA1⟩] ⟨"h2", 22⟩ ⟨"9.9.9.9", 22⟩ kRSA2).1 = false ∧
      AutoFixedHostKeyCallback [⟨["h1"], kRSA1⟩] ⟨none, none⟩ ⟨"h2", 22⟩
        ⟨"9.9.9.9", 22⟩ kRSA2 =
        (none, [⟨["h1"], kRSA1⟩] ++ [appendRecord ⟨"h2", 22⟩ ⟨"9.9.9.9", 22⟩ kRSA2])) := by
  refine ⟨⟨by decide, ?_⟩, ⟨by decide, ?_⟩, ⟨by decide, ?_⟩⟩
  · exact (AutoFixedHostKeyCallback_spec rotatedDb ⟨none, none⟩ ⟨"h", 22⟩
      ⟨"9.9.9.9", 22⟩ kRSA2).1 (GoError.keyMismatch [kRSA1]) (by decide)
  · exact (AutoFixedHostKeyCallback_spec [⟨["h1"], kRSA1⟩] ⟨none, none⟩ ⟨"h1", 22⟩
      ⟨"9.9.9.9", 22⟩ kRSA1).2.1 (by decide)
  · exact ((AutoFixedHostKeyCallback_spec [⟨["h1"], kRSA1⟩] ⟨none, none⟩ ⟨"h2", 22⟩
      ⟨"9.9.9.9", 22⟩ kRSA2).2.2 (by decide)).2.2 rfl rfl

theorem recMatch_appendRecord (host «remote» : HostPort) (key : SSHKey) :
    recMatch (appendRecord host «remote» key) (normalize host) = true := by
  simp only [recMatch, appendRecord, appendAddresses, List.any_eq_true]
  by_cases h : normalize host = normalize «remote»
  · refine ⟨normalize «remote», ?_, by simp [h]⟩
    simp [h]
  · refine ⟨normalize host, ?_, by simp⟩
    simp [Ne.symm, h]

theorem find?_append_of_none {α : Type} (p : α → Bool) :
    ∀ (l1 l2 : List α), l1.find? p = none → (l1 ++ l2).find? p = l2.find? p := by
  intro l1
  induction l1 with
  | nil => intro l2 _; rfl
  | cons x xs ih =>
    intro l2 h
    cases hx : p x
    · have hh : xs.find? p = none := by
        simpa [List.find?, hx] using h
      simpa [List.find?, hx] using ih l2 hh
    · exfalso
      simp [List.find?, hx] at h

/-- C4 counterexample: appending the rotated key `kRSA2` for alias `h` to a
store already holding the same-algorithm key `kRSA1` succeeds, yet verifying
the same (alias, remote, key) triple on the resulting store still reports
the mismatch wanting `kRSA1`: the earlier line shadows the appended one, so
the unconditional round-trip law is false of the program. -/
theorem append_roundtrip_counterexample :
    (AppendKnownHost [⟨["h"], kRSA1⟩] ⟨none, none⟩ ⟨"h", 22⟩
      ⟨"9.9.9.9", 22⟩ kRSA2).1 = none ∧
    VerifyKnownHost (AppendKnownHost [⟨["h"], kRSA1⟩] ⟨none, none⟩ ⟨"h", 22⟩
        ⟨"9.9.9.9", 22⟩ kRSA2).2 ⟨"h", 22⟩ ⟨"9.9.9.9", 22⟩ kRSA2 =
      (true, some (GoError.keyMismatch [kRSA1])) ∧
    VerifyKnownHost (AppendKnownHost [⟨["h"], kRSA1⟩] ⟨none, none⟩ ⟨"h", 22⟩
        ⟨"9.9.9.9", 22⟩ kRSA2).2 ⟨"h", 22⟩ ⟨"9.9.9.9", 22⟩ kRSA2 ≠ (true, none) := by
  decide

/-- C4 amended.  First-contact round trip: when the prior store holds no
line of the presented key's algorithm covering the alias, a successful
`AppendKnownHost` followed by `VerifyKnownHost` of the same (alias, remote,
key) triple on the resulting store returns `(true, nil)`.  (With a prior
same-algorithm covering line the appended line is shadowed and verification
still reports the mismatch, as the counterexample shows.) -/
theorem append_then_verify_roundtrip (db : List HostRecord) (io : FileIO)
    (host «remote» : HostPort) (key : SSHKey)
    (hfresh : firstKeyOfType db (normalize host) key.alg = none)
    (h : (AppendKnownHost db io host «remote» key).1 = none) :
    VerifyKnownHost (AppendKnownHost db io host «remote» key).2 host «remote» key =
      (true, none) := by
  have hdb : (AppendKnownHost db io host «remote» key).2 =
      db ++ [appendRecord host «remote» key] := by
    cases ho : io.openErr with
    | some e => simp [AppendKnownHost, ho] at h
    | none =>
      cases hw : io.writeErr with
      | some e => simp [AppendKnownHost, ho, hw] at h
      | none => simp [AppendKnownHost, ho, hw]
  rw [hdb]
  apply verify_matched_eq
  have hnone : (knownKeysFor db (normalize host)).find?
      (fun k => decide (k.alg = key.alg)) = none := hfresh
  have hany : (knownKeysFor db (normalize host)).any
      (fun k => decide (k.alg = key.alg)) = false := by
    rw [List.find?_eq_none] at hnone
    simp only [List.any_eq_false]
    intro k hk
    simpa using hnone k hk
  have hcoll : knownKeysFor (db ++ [appendRecord host «remote» key]) (normalize host) =
      knownKeysFor db (normalize host) ++ [key] := by
    show collectLoop (normalize host) (db ++ [appendRecord host «remote» key]) [] =
      knownKeysFor db (normalize host) ++ [key]
    rw [collectLoop_append]
    show collectLoop (normalize host) [appendRecord host «remote» key]
      (knownKeysFor db (normalize host)) = knownKeysFor db (normalize host) ++ [key]
    simp only [collectLoop]
    rw [if_pos (recMatch_appendRecord host «remote» key)]
    rw [if_neg (by simp [appendRecord, hany])]
    simp [collectLoop, appendRecord]
  show (knownKeysFor (db ++ [appendRecord host «remote» key]) (normalize host)).find?
      (fun k => decide (k.alg = key.alg)) = some key
  rw [hcoll, find?_append_of_none (fun k => decide (k.alg = key.alg))
    (knownKeysFor db (normalize host)) [key] hnone]
  simp [List.find?]

/-- C4 amended witness: append of a fresh host to an empty store (no prior
line of the key's algorithm) followed by verification of the same triple. -/
theorem append_then_verify_roundtrip_witness :
    firstKeyOfType [] (normalize ⟨"example.com", 22⟩) kRSA1.alg = none ∧
    (AppendKnownHost [] ⟨none, none⟩ ⟨"example.com", 22⟩ ⟨"1.2.3.4", 22⟩ kRSA1).1 =
      none ∧
    VerifyKnownHost (AppendKnownHost [] ⟨none, none⟩ ⟨"example.com", 22⟩
        ⟨"1.2.3.4", 22⟩ kRSA1).2 ⟨"example.com", 22⟩ ⟨"1.2.3.4", 22⟩ kRSA1 =
      (true, none) :=
  ⟨rfl, rfl, append_then_verify_roundtrip [] ⟨none, none⟩ ⟨"example.com", 22⟩
    ⟨"1.2.3.4", 22⟩ kRSA1 rfl rfl⟩


/-- C8.  With the agent unavailable (not requested or no socket), no key path
and no password, `Auth` returns the `no auth method` error. -/
theorem Auth_noAuthMethod (opts : Options) (env : AuthEnv)
    (hagent : opts.useAgent = false ∨ env.hasAgent = false)
    (hkey : opts.key = "") (hpass : opts.password = "") :
    Auth opts env = .error GoError.noAuthMethod := by
  have hcond : (opts.useAgent && env.hasAgent) = false := by
    rcases hagent with h | h <;> simp [h]
  simp [Auth, hcond, hkey, hpass]

/-- C8 witness: default options (password, key empty, agent off) resolve to
`no auth method`. -/
theorem Auth_noAuthMethod_witness :
    NewOptions.useAgent = false ∧ NewOptions.key = "" ∧ NewOptions.password = "" ∧
    Auth NewOptions ⟨false, .error .agentFail, fun _ _ => .error .keyParse⟩ =
      .error GoError.noAuthMethod :=
  ⟨rfl, rfl, rfl,
    Auth_noAuthMethod NewOptions ⟨false, .error .agentFail, fun _ _ => .error .keyParse⟩
      (Or.inl rfl) rfl rfl⟩

/-- C9.  When the agent step yields no method, a key path is configured whose
material fails to load or parse, and a non-empty password is configured,
`Auth` does not fail at the key step: it falls through to the password and
returns the password-based method. -/
theorem Auth_key_failure_falls_through_to_password (opts : Options) (env : AuthEnv)
    (hagent : opts.useAgent = false ∨ env.hasAgent = false ∨
      ∃ e, env.agentResult = .error e)
    (hkey : opts.key ≠ "")
    (e : GoError) (hload : env.getSigner opts.key opts.keyPassphrase = .error e)
    (hpass : opts.password ≠ "") :
    Auth opts env = .ok (AuthMethod.password opts.password) := by
  rcases hagent with h | h | ⟨ea, h⟩
  · simp [Auth, h, hkey, hload, hpass]
  · simp [Auth, h, hkey, hload, hpass]
  · cases hcond : (opts.useAgent && env.hasAgent) <;>
      simp [Auth, hcond, h, hkey, hload, hpass]

/-- C9 witness: a key path whose parse fails together with a password set
resolves to the password method. -/
theorem Auth_key_failure_falls_through_to_password_witness :
    ({ NewOptions with key := "/home/u/.ssh/id_rsa", password := "pw" } : Options).key ≠ "" ∧
    (fun (_ : String) (_ : String) => (.error .keyParse : Except GoError Nat))
        "/home/u/.ssh/id_rsa" "" = .error .keyParse ∧
    ({ NewOptions with key := "/home/u/.ssh/id_rsa", password := "pw" } : Options).password ≠ "" ∧
    Auth { NewOptions with key := "/home/u/.ssh/id_rsa", password := "pw" }
        ⟨false, .error .agentFail, fun _ _ => .error .keyParse⟩ =
      .ok (AuthMethod.password "pw") :=
  ⟨by decide, rfl, by decide,
    Auth_key_failure_falls_through_to_password
      { NewOptions with key := "/home/u/.ssh/id_rsa", password := "pw" }
      ⟨false, .error .agentFail, fun _ _ => .error .keyParse⟩
      (Or.inl rfl) (by decide) .keyParse rfl (by decide)⟩


/-- C5 counterexample: a second `Close` after a successful `Dial` and a first
`Close` is not a nil-returning no-op: the embedded ssh client is never
cleared, so its `Close` is invoked again and its already-closed error is
returned. -/
theorem second_close_counterexample :
    dialedClient.Close.err = none ∧
    closedOnceClient.Close.err = some GoError.netClosed ∧
    closedOnceClient.Close.connCloseInvoked = true :=
  ⟨rfl, rfl, rfl⟩

/-- C5 amended: `Close` returns `nil` without touching any connection exactly
when the embedded ssh client is nil (never dialed); whenever it is non-nil —
including after a previous `Close` — `Close` delegates to the underlying
connection's `Close`, which returns `nil` iff the connection was not yet
closed, so a second `Close` reports the already-closed error. -/
theorem close_amended (c : Client) :
    (c.conn = none → c.Close.err = none ∧ c.Close.connCloseInvoked = false) ∧
    (∀ conn, c.conn = some conn →
      c.Close.connCloseInvoked = true ∧
      (c.Close.err = none ↔ conn.closed = false)) := by
  constructor
  · intro h
    simp [Client.Close, h]
  · intro conn h
    cases hc : conn.closed <;>
      simp [Client.Close, SSHConn.close, h, hc]

/-- C5 amended witness: `close_amended` at the never-dialed client and at the
dialed-and-closed client. -/
theorem close_amended_witness :
    (newClient0.Close.err = none ∧ newClient0.Close.connCloseInvoked = false) ∧
    (closedOnceClient.Close.connCloseInvoked = true ∧
      (closedOnceClient.Close.err = none ↔ (⟨true⟩ : SSHConn).closed = false)) :=
  ⟨(close_amended newClient0).1 rfl, (close_amended closedOnceClient).2 ⟨true⟩ rfl⟩

/-- C6.  For a command bound to a context, when the context becomes done
before the remote call completes (the context branch of the select wins),
each of `Output`, `CombinedOutput` and `Run` sends SIGINT to the remote
process and returns the context's cancellation error with no output. -/
theorem cancel_before_completion (c : Cmd) (ctx : Ctx) (s : SessionSt) (r : Remote)
    (hctx : c.ctx = some ctx) (hs : c.session = some s) :
    ((c.Output r true).err = some ctx.doneErr ∧ (c.Output r true).out = [] ∧
      (c.Output r true).sigint = true) ∧
    ((c.CombinedOutput r true).err = some ctx.doneErr ∧
      (c.CombinedOutput r true).out = [] ∧ (c.CombinedOutput r true).sigint = true) ∧
    ((c.Run r true).err = some ctx.doneErr ∧ (c.Run r true).out = [] ∧
      (c.Run r true).sigint = true) := by
  simp [Cmd.Output, Cmd.CombinedOutput, Cmd.Run, Cmd.execCore, hctx, hs]

/-- C6 witness: `cancel_before_completion` at the concrete context-bound
command. -/
theorem cancel_before_completion_witness :
    (ctxCmd.Output remoteOk true).err = some GoError.ctxCanceled ∧
    (ctxCmd.Output remoteOk true).out = [] ∧
    (ctxCmd.Output remoteOk true).sigint = true ∧
    (ctxCmd.Run remoteOk true).err = some GoError.ctxCanceled := by
  have h := cancel_before_completion ctxCmd ⟨GoError.ctxCanceled⟩
    ⟨false, false⟩ remoteOk rfl rfl
  exact ⟨h.1.1, h.1.2.1, h.1.2.2, h.2.2.1⟩

theorem pipeLoop_clean (fn : List Nat → Option GoError) :
    ∀ ls : List (List Nat), (∀ l ∈ ls, fn l = none) → pipeLoop fn ls = (none, ls) := by
  intro ls
  induction ls with
  | nil => intro _; rfl
  | cons l ls ih =>
    intro h
    have hl : fn l = none := h l (List.mem_cons_self l ls)
    have hrest := ih (fun x hx => h x (List.mem_cons_of_mem l hx))
    simp [pipeLoop, hl, hrest]

theorem pipeLoop_first_error (fn : List Nat → Option GoError) (l : List Nat) (e : GoError)
    (hl : fn l = some e) :
    ∀ (pre post : List (List Nat)), (∀ x ∈ pre, fn x = none) →
      pipeLoop fn (pre ++ l :: post) = (some e, pre ++ [l]) := by
  intro pre
  induction pre with
  | nil => intro post _; simp [pipeLoop, hl]
  | cons p ps ih =>
    intro post h
    have hp : fn p = none := h p (List.mem_cons_self p ps)
    have hrest := ih post (fun x hx => h x (List.mem_cons_of_mem p hx))
    simp [pipeLoop, hp, hrest]

/-- C7.  On a live session with stdout pipe and start succeeding,
`OutputPipe` invokes the handler exactly once per line in arrival order: if
the handler never errors, the handler sees all lines and the wait outcome is
returned after waiting; if the handler errors on some line, exactly the lines
up to and including that one were handed over and that error is returned
without waiting for process exit. -/
theorem OutputPipe_spec (c : Cmd) (s : SessionSt) (fn : List Nat → Option GoError)
    (b : PipeBehavior) (hs : c.session = some s) (hstarted : s.started = false)
    (hpipe : b.stdoutPipeErr = none) (hstart : b.startErr = none) :
    ((∀ l ∈ b.lines, fn l = none) →
      (c.OutputPipe fn b).err = b.waitErr ∧ (c.OutputPipe fn b).invoked = b.lines ∧
      (c.OutputPipe fn b).waited = true) ∧
    (∀ (pre : List (List Nat)) (l : List Nat) (e : GoError) (post : List (List Nat)),
      b.lines = pre ++ l :: post → (∀ x ∈ pre, fn x = none) → fn l = some e →
      (c.OutputPipe fn b).err = some e ∧ (c.OutputPipe fn b).invoked = pre ++ [l] ∧
      (c.OutputPipe fn b).waited = false) := by
  constructor
  · intro h
    have hloop := pipeLoop_clean fn b.lines h
    simp [Cmd.OutputPipe, hs, hpipe, hstarted, hstart, hloop]
  · intro pre l e post hsplit hpre hl
    have hloop := pipeLoop_first_error fn l e hl pre post hpre
    simp [Cmd.OutputPipe, hs, hpipe, hstarted, hstart, hsplit, hloop]

/-- C7 witness: `OutputPipe_spec` at a clean two-line stream (wait outcome
surfaced, both lines delivered) and at a stream whose second line makes the
handler fail (error surfaced, only the first two lines delivered, no
wait). -/
theorem OutputPipe_spec_witness :
    ((echoCmd.OutputPipe pipeFn ⟨none, none, [[1], [2]], some (GoError.ioError "w")⟩).err =
        some (GoError.ioError "w") ∧
      (echoCmd.OutputPipe pipeFn ⟨none, none, [[1], [2]], some (GoError.ioError "w")⟩).invoked =
        [[1], [2]] ∧
      (echoCmd.OutputPipe pipeFn ⟨none, none, [[1], [2]], some (GoError.ioError "w")⟩).waited =
        true) ∧
    ((echoCmd.OutputPipe pipeFn ⟨none, none, [[1], [9], [3]], none⟩).err =
        some (GoError.handler 1) ∧
      (echoCmd.OutputPipe pipeFn ⟨none, none, [[1], [9], [3]], none⟩).invoked =
        [[1], [9]] ∧
      (echoCmd.OutputPipe pipeFn ⟨none, none, [[1], [9], [3]], none⟩).waited = false) := by
  constructor
  · exact (OutputPipe_spec echoCmd ⟨false, false⟩ pipeFn
      ⟨none, none, [[1], [2]], some (GoError.ioError "w")⟩ rfl rfl rfl rfl).1
      (by decide)
  · exact (OutputPipe_spec echoCmd ⟨false, false⟩ pipeFn
      ⟨none, none, [[1], [9], [3]], none⟩ rfl rfl rfl rfl).2
      [[1]] [9] (GoError.handler 1) [[3]] rfl (by decide) (by decide)

/-- C10.  Every client built by `New` (before any `WithHostKeyCallback`)
carries a host-key callback into the handshake configuration that accepts
every (hostname, remote address, presented key) triple by returning `nil`:
by default no host identity verification is performed. -/
theorem New_default_callback_accepts_all (opts : Options) (env : AuthEnv) (c : Client)
    (h : New opts env = .ok c) (hostname «remote» : HostPort) (key : SSHKey) :
    c.dialConfig.hostKeyCallback hostname «remote» key = none := by
  unfold New at h
  cases ha : Auth opts env with
  | error e => rw [ha] at h; cases h
  | ok a =>
    rw [ha] at h
    injection h with h2
    subst h2
    rfl

/-- C10 witness: `New_default_callback_accepts_all` at the concrete
password-authenticated client and an arbitrary triple. -/
theorem New_default_callback_accepts_all_witness :
    New cliOpts cliEnv = .ok newClient0 ∧
    newClient0.dialConfig.hostKeyCallback ⟨"example.com", 22⟩ ⟨"1.2.3.4", 22⟩ kRSA1 = none :=
  ⟨rfl, New_default_callback_accepts_all cliOpts cliEnv newClient0 rfl
    ⟨"example.com", 22⟩ ⟨"1.2.3.4", 22⟩ kRSA1⟩

end gssh
